import Mathlib

/-!
Verification of the sentiment-pipeline notebook
(`src/notebooks/sentiment-pipeline-sklearn-5.ipynb`).

The notebook is orchestration glue around an external ML library: it builds a
pipeline, declares a parameter grid, runs a cross-validated grid search, and
reports evaluation metrics.  The helper modules it imports
(`fetch_twitter_data`, `sklearn_helpers`) and the library internals are not
part of the checked sources, so those operations are modelled from the spec
(each such definition says so in its doc comment).  The parameter grid, the
recorded run outputs, and `print_best_params_dict` are taken directly from the
notebook.
-/

namespace Sentiment

/-- Sentiment labels: the fixed 3-class enum of the corpus. -/
inductive Label
  | negative
  | neutral
  | positive
deriving DecidableEq

/-- A corpus item: text plus sentiment label. -/
structure CorpusItem where
  text : String
  label : Label
deriving DecidableEq

/-- Configuration of an nltk casual TweetTokenizer instance, as constructed in
the notebook (`preserve_case`, `reduce_len` keyword arguments). -/
structure TokenizerCfg where
  preserve_case : Bool
  reduce_len : Bool
deriving DecidableEq

/-- One value on an axis of the notebook's parameter grid.  `tok none` is the
`None` axis value (use the vectorizer's default tokenizer). -/
inductive ParamValue
  | kwActive (active : Bool)
  | ngramRange (lo hi : Nat)
  | tok (t : Option TokenizerCfg)
  | maxDf (v : Rat)
  | cValue (v : Rat)
deriving DecidableEq

/-- Axis `genericize_mentions__kw_args`: active off/on. -/
def genericizeMentionsAxis : List ParamValue := [.kwActive false, .kwActive true]

/-- Axis `features__post_length__kw_args`: active off/on. -/
def postLengthAxis : List ParamValue := [.kwActive false, .kwActive true]

/-- Axis `features__vectorizer__ngram_range`: (1,1), (1,2), (1,3). -/
def ngramAxis : List ParamValue := [.ngramRange 1 1, .ngramRange 1 2, .ngramRange 1 3]

/-- Axis `features__vectorizer__tokenizer`: the four TweetTokenizer
configurations of the notebook plus `None` (default tokenizer). -/
def tokenizerAxis : List ParamValue :=
  [.tok (some ⟨false, false⟩), .tok (some ⟨false, true⟩),
   .tok (some ⟨true, false⟩), .tok (some ⟨true, true⟩), .tok none]

/-- Axis `features__vectorizer__max_df`: 0.25, 0.5. -/
def maxDfAxis : List ParamValue := [.maxDf (1 / 4), .maxDf (1 / 2)]

/-- Axis `classifier__C`: np.logspace(-2, 0, 3) = 0.01, 0.1, 1.0. -/
def cAxis : List ParamValue := [.cValue (1 / 100), .cValue (1 / 10), .cValue 1]

/-- The notebook's parameter grid, in the order of the `parameters` dict. -/
def notebookGrid : List (List ParamValue) :=
  [genericizeMentionsAxis, postLengthAxis, ngramAxis, tokenizerAxis, maxDfAxis, cAxis]

/-- Modelled from the spec: `Expanding` computes the Cartesian product of the
Parameter Grid (the grid-search library driving the notebook's `GridSearchCV`
call is not under src).  Each combination assigns one value to every axis, in
axis order. -/
def expandGrid {α : Type} : List (List α) → List (List α)
  | [] => [[]]
  | axis :: rest => axis.flatMap fun v => (expandGrid rest).map (v :: ·)

/-- A grid point: one value per axis. -/
abbrev Combo := List ParamValue

/-- Modelled from the spec and the recorded output: 3-fold cross-validation
("Fitting 3 folds for each of 360 candidates"). -/
def numFolds : Nat := 3

/-- The three class labels, in the reporting order of the recorded output. -/
def allLabels : List Label := [.negative, .neutral, .positive]

/-- Number of occurrences of a class in a label sequence. -/
def countLabel (c : Label) (ys : List Label) : Nat := ys.count c

/-- Modelled from the spec: the majority class of a label sequence (ties broken
in enum order). -/
def majorityClass (ys : List Label) : Label :=
  if countLabel .negative ys < countLabel .neutral ys then
    if countLabel .neutral ys < countLabel .positive ys then .positive else .neutral
  else
    if countLabel .negative ys < countLabel .positive ys then .positive else .negative

/-- Accuracy of predictions against true labels: fraction of positions where
they agree. -/
def accuracy (truth pred : List Label) : Rat :=
  (((truth.zip pred).countP fun x => decide (x.1 = x.2) : Nat) : Rat) / (truth.length : Rat)

/-- Modelled from the spec: null accuracy, computed by `train_test_and_evaluate`
(in `sklearn_helpers`, not under src) — the count of the Training Set's
majority class among the Evaluation Set labels, divided by the Evaluation Set
size. -/
def nullAccuracy (train evalL : List Label) : Rat :=
  ((countLabel (majorityClass train) evalL : Nat) : Rat) / (evalL.length : Rat)

/-- One entry of the confusion matrix: items whose true label is `t` and whose
predicted label is `p`. -/
def confusionEntry (truth pred : List Label) (t p : Label) : Nat :=
  (truth.zip pred).countP fun x => decide (x.1 = t) && decide (x.2 = p)

/-- One row of the confusion matrix (fixed true label, columns over predicted). -/
def confusionRow (truth pred : List Label) (t : Label) : List Nat :=
  allLabels.map (confusionEntry truth pred t)

/-- Modelled from the spec: the confusion matrix — rows = true label,
columns = predicted label, in `allLabels` order. -/
def confusionOf (truth pred : List Label) : List (List Nat) :=
  allLabels.map (confusionRow truth pred)

/-- Row totals of a matrix (the `__all__` column of the recorded output). -/
def rowTotals (m : List (List Nat)) : List Nat := m.map List.sum

/-- Column totals of a matrix (the `__all__` row of the recorded output). -/
def colTotals : List (List Nat) → List Nat
  | [] => []
  | [r] => r
  | r :: rest => List.zipWith (· + ·) r (colTotals rest)

/-- Grand total of a matrix. -/
def grandTotal (m : List (List Nat)) : Nat := (m.map List.sum).sum

/-- Main-diagonal sum of a matrix (correct predictions). -/
def diagSum (m : List (List Nat)) : Nat :=
  ((m.zip (List.range m.length)).map fun x => x.1.getD x.2 0).sum

/-- The evaluation report assembled by `train_test_and_evaluate`. -/
structure Report where
  nullAcc : Rat
  acc : Rat
  confusion : List (List Nat)
deriving DecidableEq

/-- Modelled from the spec: the evaluation of the refit pipeline on the
Evaluation Set (`train_test_and_evaluate` is in `sklearn_helpers`, not under
src).  The report's accuracy and confusion matrix are computed from the
predictions on the Evaluation Set; null accuracy from the Training Set's
majority class. -/
def evaluateReport (predict : String → Label) (train evalItems : List CorpusItem) : Report :=
  let truth := evalItems.map (·.label)
  let pred := evalItems.map fun it => predict it.text
  { nullAcc := nullAccuracy (train.map (·.label)) truth
    acc := accuracy truth pred
    confusion := confusionOf truth pred }

/-- Page counts printed by `fetch_the_data` in the recorded run. -/
def pageCounts : List Nat := [92, 88, 88, 91, 87, 89, 95, 93, 86, 90]

/-- Total posts of the recorded run; the notebook prints
"got all pages - 899 posts in total". -/
def totalPosts : Nat := pageCounts.sum

/-- Confusion matrix recorded in the notebook output
(rows and columns: negative, neutral, positive). -/
def recordedConfusion : List (List Nat) := [[29, 15, 20], [8, 43, 19], [7, 12, 72]]

/-- Evaluation Set size of the recorded run: the confusion matrix grand total. -/
def recordedEvalSize : Nat := grandTotal recordedConfusion

/-- Linear congruential step: the pseudorandom source of the model. -/
def lcg (s : Nat) : Nat := (s * 1103515245 + 12345) % 2 ^ 31

/-- Fisher–Yates-style selection shuffle; `fuel` equals the list length at
every call. -/
def shuffleGo : Nat → Nat → List Nat → List Nat
  | 0, _, _ => []
  | _ + 1, _, [] => []
  | fuel + 1, s, x :: xs =>
    let y := (x :: xs).getD (s % (x :: xs).length) x
    y :: shuffleGo fuel (lcg s) ((x :: xs).erase y)

/-- Seeded pseudorandom shuffle of a list of indices. -/
def shuffle (s : Nat) (l : List Nat) : List Nat := shuffleGo l.length s l

/-- Modelled from the spec: `train_test_split` (external library call) —
pseudorandomly permute the item indices with the seed and hold out a quarter
(rounded up, the library's default test fraction) as the Evaluation Set; the
rest is the Training Set.  Returns (training indices, evaluation indices). -/
def train_test_split (seed n : Nat) : List Nat × List Nat :=
  let perm := shuffle seed (List.range n)
  let testSize := (n + 3) / 4
  (perm.drop testSize, perm.take testSize)

/-- Modelled from the spec: k-fold assignment by contiguous blocks; fold `i`
holds out its block. -/
def foldHeldOut {α : Type} (k i : Nat) (l : List α) : List α :=
  (l.take ((i + 1) * l.length / k)).drop (i * l.length / k)

/-- The complement of fold `i`'s held-out block: the portion a fold's fit sees. -/
def foldTrainPart {α : Type} (k i : Nat) (l : List α) : List α :=
  l.take (i * l.length / k) ++ l.drop ((i + 1) * l.length / k)

/-- Modelled from the spec: the CountVectorizer's learned vocabulary — the set
of terms occurring in the documents it was fitted on (fit sees only those
documents). -/
def vocab (docs : List (List String)) : List String := docs.flatten.dedup

/-- Model of `sklearn_helpers.get_tweet_length`: character count of the text. -/
def get_tweet_length (t : String) : Nat := t.length

/-- Modelled from the spec: `sklearn_helpers.pipelinize_feature` — when active,
a one-column block holding the feature value per item; when inactive, a
constant zero column of the same shape, so the width is stable. -/
def pipelinize_feature (f : String → Nat) (active : Bool) (texts : List String) :
    List (List Nat) :=
  if active then texts.map fun t => [f t]
  else texts.map fun _ => [0]

/-- Modelled from the spec: FeatureUnion concatenates per-item feature blocks. -/
def featureUnion (a b : List (List Nat)) : List (List Nat) :=
  (a.zip b).map fun x => x.1 ++ x.2

/-- The worst possible score: a failed combination is recorded with it. -/
def worstScore : Rat := 0

/-- The score recorded for one combination: its mean fold score, or
`worstScore` when its fit failed. -/
def recordScore (fit : Combo → Option Rat) (c : Combo) : Rat :=
  (fit c).getD worstScore

/-- Modelled from the spec §4.6: the per-combination score records; every
combination is recorded, failures with the worst score. -/
def recordedScores (fit : Combo → Option Rat) (combos : List Combo) : List (Combo × Rat) :=
  combos.map fun c => (c, recordScore fit c)

/-- The fatal search error of the spec's taxonomy. -/
inductive SearchError
  | SearchExhausted
deriving DecidableEq

/-- Keep the better-scoring of two records; the incumbent wins ties
(first-seen-wins tie-breaking). -/
def pickBetter (best y : Combo × Rat) : Combo × Rat :=
  if best.2 < y.2 then y else best

/-- First-seen-wins argmax over recorded scores (a later entry replaces the
incumbent only when strictly better). -/
def selectBest : List (Combo × Rat) → Option (Combo × Rat)
  | [] => none
  | x :: xs => some (xs.foldl pickBetter x)

/-- Modelled from the spec §4.6: the search outcome — every combination is
evaluated (failures recorded with the worst score, the search continues), and
the run is the fatal `SearchExhausted` error exactly when no combination's fit
succeeded. -/
def runSearch (fit : Combo → Option Rat) (combos : List Combo) :
    Except SearchError (Combo × Rat) :=
  if combos.all fun c => (fit c).isNone then .error .SearchExhausted
  else
    match selectBest (recordedScores fit combos) with
    | some b => .ok b
    | none => .error .SearchExhausted

/-- Modelled from the spec: materialize the index split as item lists
(training items, evaluation items). -/
def splitData (seed : Nat) (data : List CorpusItem) : List CorpusItem × List CorpusItem :=
  let idx := train_test_split seed data.length
  (idx.1.filterMap fun i => data[i]?, idx.2.filterMap fun i => data[i]?)

/-- Modelled from the spec: the mean k-fold cross-validation score of one grid
combination.  The pipeline's learning internals are external collaborators; the
model scores each fold by the majority-class baseline accuracy on the held-out
portion, a deterministic function of the fold assignment — which is what the
determinism claim needs. -/
def comboScore (train : List Label) (_c : Combo) : Rat :=
  (((List.range numFolds).map fun i =>
    nullAccuracy (foldTrainPart numFolds i train) (foldHeldOut numFolds i train)).sum) /
    (numFolds : Rat)

/-- Modelled from the spec: the report produced at the end of a run.  The refit
classifier is an external collaborator; the model predicts the Training Set's
majority class, a deterministic function of the run's inputs. -/
def mkReport (train evalItems : List CorpusItem) : Report :=
  evaluateReport (fun _ => majorityClass (train.map (·.label))) train evalItems

/-- States of the Hyperparameter Search state machine of spec §4.6. -/
inductive SearchState
  | idle
  | expanding (train evalItems : List CorpusItem)
  | evaluating (train evalItems : List CorpusItem)
      (pending : List Combo) (scores : List (Combo × Rat))
  | selecting (train evalItems : List CorpusItem) (scores : List (Combo × Rat))
  | refitting (train evalItems : List CorpusItem) (best : Combo × Rat)
  | done (best : Combo × Rat) (rep : Report)
deriving DecidableEq

/-- Modelled from the spec §4.6: one transition of the Hyperparameter Search,
for a fixed grid, seed, and input corpus.  Every transition is a function of
the state and those fixed inputs alone. -/
inductive Step (axes : List (List ParamValue)) (seed : Nat) (data : List CorpusItem) :
    SearchState → SearchState → Prop
  | split :
      Step axes seed data .idle
        (.expanding (splitData seed data).1 (splitData seed data).2)
  | toEvaluating (tr ev : List CorpusItem) :
      Step axes seed data (.expanding tr ev) (.evaluating tr ev (expandGrid axes) [])
  | evalOne (tr ev : List CorpusItem) (c : Combo) (rest : List Combo)
      (scores : List (Combo × Rat)) :
      Step axes seed data (.evaluating tr ev (c :: rest) scores)
        (.evaluating tr ev rest (scores ++ [(c, comboScore (tr.map (·.label)) c)]))
  | toSelecting (tr ev : List CorpusItem) (scores : List (Combo × Rat)) :
      Step axes seed data (.evaluating tr ev [] scores) (.selecting tr ev scores)
  | select (tr ev : List CorpusItem) (scores : List (Combo × Rat)) (b : Combo × Rat)
      (h : selectBest scores = some b) :
      Step axes seed data (.selecting tr ev scores) (.refitting tr ev b)
  | finish (tr ev : List CorpusItem) (b : Combo × Rat) :
      Step axes seed data (.refitting tr ev b) (.done b (mkReport tr ev))

/-- Reachability in zero or more Search transitions. -/
def Reaches (axes : List (List ParamValue)) (seed : Nat) (data : List CorpusItem)
    (s t : SearchState) : Prop :=
  Relation.ReflTransGen (Step axes seed data) s t

/-- The value of one best-parameter entry, for the JSON-serialized mapping of
`print_best_params_dict`. -/
abbrev ParamEntry := String × ParamValue

/-- The best-parameter mapping `grid.best_params_`: one entry per grid axis. -/
structure BestParams where
  genericize_mentions_kw : Bool
  post_length_kw : Bool
  ngram_lo : Nat
  ngram_hi : Nat
  tokenizer : Option TokenizerCfg
  max_df : Rat
  c_value : Rat
deriving DecidableEq

/-- The association list of `grid.best_params_`. -/
def bestParamsList (bp : BestParams) : List ParamEntry :=
  [("genericize_mentions__kw_args", .kwActive bp.genericize_mentions_kw),
   ("features__post_length__kw_args", .kwActive bp.post_length_kw),
   ("features__vectorizer__ngram_range", .ngramRange bp.ngram_lo bp.ngram_hi),
   ("features__vectorizer__tokenizer", .tok bp.tokenizer),
   ("features__vectorizer__max_df", .maxDf bp.max_df),
   ("classifier__C", .cValue bp.c_value)]

/-- What `print_best_params_dict` emits: whether the default-tokenizer branch
was taken, the mapping passed to json.dumps, and the tokenizer settings
printed separately (read off the bound method's `im_self`), if any. -/
structure PrintResult where
  usedDefault : Bool
  paramsToPrint : List ParamEntry
  separateSettings : Option (Bool × Bool)
deriving DecidableEq

/-- Model of the notebook's `print_best_params_dict` (cell 10): when the best
tokenizer is `None`, the whole `best_params_` mapping is serialized; otherwise
the tokenizer entry is filtered out of the mapping and the tokenizer's
`preserve_case` and `reduce_len` are printed separately. -/
def print_best_params_dict (bp : BestParams) : PrintResult :=
  match bp.tokenizer with
  | none => ⟨true, bestParamsList bp, none⟩
  | some cfg =>
      ⟨false,
       (bestParamsList bp).filter fun kv =>
         decide (kv.1 ≠ "features__vectorizer__tokenizer"),
       some (cfg.preserve_case, cfg.reduce_len)⟩

/-- Evaluation labels with class sizes 30, 50, 20, for exercising the null
accuracy property at a concrete input. -/
def evalSample : List Label :=
  List.replicate 30 .negative ++ List.replicate 50 .neutral ++ List.replicate 20 .positive

/-- A training label sequence whose majority class is `neutral`. -/
def trainSample : List Label := [.negative, .neutral, .neutral]

/-- A fit that fails on every combination, for exercising the SearchExhausted
outcome at a concrete input. -/
def failFit : Combo → Option Rat := fun _ => none

/-- A one-combination grid for exercising the search at a concrete input. -/
def demoCombos : List Combo := [[.kwActive true]]

/-- A single-axis grid for exercising the full search state machine. -/
def tinyAxes : List (List ParamValue) := [[.kwActive true]]

/-- The single combination of `tinyAxes`. -/
def tinyCombo : Combo := [.kwActive true]

/-- The score the model assigns `tinyCombo` on an empty training set. -/
def tinyScore : Rat := comboScore [] tinyCombo

/-- The best record of the `tinyAxes` run. -/
def tinyBest : Combo × Rat := (tinyCombo, tinyScore)

/-- The report of the `tinyAxes` run on an empty corpus. -/
def tinyReport : Report := mkReport [] []

/-- Documents where the term "leak" occurs only in the last document. -/
def leakDocs : List (List String) := [["alpha"], ["beta"], ["leak"]]

/-- Two concrete score records for exercising best-combination selection. -/
def demoScores : List (Combo × Rat) :=
  [([.kwActive false], 1 / 4), ([.kwActive true], 3 / 4)]

/-- Concrete evaluation-set labels for exercising the confusion matrix. -/
def truthSample : List Label := [.negative, .neutral, .positive, .positive]

/-- Concrete predicted labels for exercising the confusion matrix. -/
def predSample : List Label := [.negative, .negative, .positive, .neutral]

/-- A best-parameter assignment whose tokenizer is a casual-tokenizer bound
method (the non-default branch of `print_best_params_dict`). -/
def bpCasual : BestParams :=
  ⟨true, true, 1, 1, some ⟨false, false⟩, 1 / 4, 1 / 10⟩

/-- A best-parameter assignment whose tokenizer is `None` (the default-branch
of `print_best_params_dict`). -/
def bpDefault : BestParams := ⟨true, true, 1, 1, none, 1 / 4, 1 / 10⟩

/-! ## Lemmas about grid expansion -/

theorem expandGrid_length {α : Type} (axes : List (List α)) :
    (expandGrid axes).length = (axes.map List.length).prod := by
  induction axes with
  | nil => rfl
  | cons axis rest ih =>
    have hfun : (List.length ∘ fun v : α => (expandGrid rest).map (v :: ·)) =
        fun _ : α => (expandGrid rest).length := by
      funext v; simp
    calc (expandGrid (axis :: rest)).length
        = (axis.map (List.length ∘ fun v => (expandGrid rest).map (v :: ·))).sum := by
          simp [expandGrid, List.length_flatMap]
      _ = (axis.map fun _ => (expandGrid rest).length).sum := by rw [hfun]
      _ = axis.length * (expandGrid rest).length := by
          rw [List.map_const', List.sum_replicate, smul_eq_mul]
      _ = ((axis :: rest).map List.length).prod := by
          rw [ih]; simp

theorem expandGrid_nodup {α : Type} (axes : List (List α)) (h : ∀ a ∈ axes, a.Nodup) :
    (expandGrid axes).Nodup := by
  induction axes with
  | nil => simp [expandGrid]
  | cons axis rest ih =>
    rw [expandGrid, List.nodup_flatMap]
    refine ⟨fun v _ => ?_, ?_⟩
    · exact (ih fun a ha => h a (List.mem_cons_of_mem _ ha)).map
        fun x y hxy => by injection hxy
    · have haxis : axis.Nodup := h axis (List.mem_cons_self _ _)
      refine haxis.imp ?_
      intro v w hvw x hx hx'
      simp only [List.mem_map] at hx hx'
      obtain ⟨cs, _, rfl⟩ := hx
      obtain ⟨ds, _, heq⟩ := hx'
      injection heq with h1 h2
      exact hvw h1.symm

theorem notebookGrid_nodup : ∀ a ∈ notebookGrid, a.Nodup := by
  intro a ha
  simp only [notebookGrid, List.mem_cons, List.not_mem_nil, or_false] at ha
  rcases ha with rfl | rfl | rfl | rfl | rfl | rfl
  · decide
  · decide
  · decide
  · decide
  · simp [maxDfAxis, List.nodup_cons, ParamValue.maxDf.injEq]
  · simp [cAxis, List.nodup_cons, ParamValue.cValue.injEq]

/-- Claim C1: for every Parameter Grid with axis cardinalities c1..cn, the
search evaluates exactly c1×...×cn combinations, each exactly once; the
notebook's grid has axes of sizes 2, 2, 3, 5, 2, 3, hence 360 combinations,
and with 3-fold cross-validation 3 × 360 = 1080 fold-fits. -/
theorem C1_grid_combinations :
    (∀ axes : List (List ParamValue),
      (expandGrid axes).length = (axes.map List.length).prod)
    ∧ (∀ axes : List (List ParamValue),
        (∀ a ∈ axes, a.Nodup) → (expandGrid axes).Nodup)
    ∧ notebookGrid.map List.length = [2, 2, 3, 5, 2, 3]
    ∧ (expandGrid notebookGrid).length = 360
    ∧ numFolds * (expandGrid notebookGrid).length = 1080 := by
  refine ⟨fun axes => expandGrid_length axes, fun axes h => expandGrid_nodup axes h, rfl, ?_, ?_⟩
  · rw [expandGrid_length]; rfl
  · rw [expandGrid_length]; rfl

/-- Witness for C1 at the notebook's own grid: its axes have no duplicate
values, so every one of its 360 combinations is evaluated exactly once. -/
theorem C1_grid_combinations_witness :
    (∀ a ∈ notebookGrid, a.Nodup) ∧ (expandGrid notebookGrid).Nodup :=
  ⟨notebookGrid_nodup, C1_grid_combinations.2.1 notebookGrid notebookGrid_nodup⟩

/-! ## Lemmas about counting and null accuracy -/

theorem countP_zip_self_const (c : Label) (l : List Label) :
    ((l.zip (l.map fun _ => c)).countP fun x => decide (x.1 = x.2)) = l.count c := by
  induction l with
  | nil => rfl
  | cons a l ih =>
    simp only [List.map_cons, List.zip_cons_cons, List.countP_cons, ih, List.count_cons]
    by_cases h : a = c <;> simp [h]

/-- Claim C2: null accuracy is the accuracy obtained on the Evaluation Set by
always predicting the majority class of the Training Set; for an Evaluation
Set of 100 items of which 50 carry the Training Set's majority class, it is
50/100 = 1/2. -/
theorem C2_null_accuracy :
    (∀ train evalL : List Label,
      nullAccuracy train evalL =
        accuracy evalL (evalL.map fun _ => majorityClass train))
    ∧ (∀ train evalL : List Label, evalL.length = 100 →
        countLabel (majorityClass train) evalL = 50 →
        nullAccuracy train evalL = 1 / 2) := by
  constructor
  · intro train evalL
    unfold nullAccuracy accuracy countLabel
    rw [countP_zip_self_const]
  · intro train evalL hlen hcount
    unfold nullAccuracy
    rw [hcount, hlen]
    norm_num

/-- Witness for C2: an Evaluation Set with class sizes 30, 50, 20 whose
majority-of-training class is the 50-strong class has null accuracy 1/2. -/
theorem C2_null_accuracy_witness :
    evalSample.length = 100
    ∧ countLabel (majorityClass trainSample) evalSample = 50
    ∧ nullAccuracy trainSample evalSample = 1 / 2 := by
  have hlen : evalSample.length = 100 := by decide
  have hcount : countLabel (majorityClass trainSample) evalSample = 50 := by decide
  exact ⟨hlen, hcount, C2_null_accuracy.2 trainSample evalSample hlen hcount⟩

/-! ## Lemmas about feature width -/

theorem pipelinize_feature_widths (f : String → Nat) (a : Bool) (texts : List String) :
    (pipelinize_feature f a texts).map List.length = texts.map fun _ => 1 := by
  unfold pipelinize_feature
  cases a
  · rw [if_neg (by simp), List.map_map]; rfl
  · rw [if_pos rfl, List.map_map]; rfl

theorem featureUnion_width_congr (a : List (List Nat)) :
    ∀ b c : List (List Nat), b.map List.length = c.map List.length →
      (featureUnion a b).map List.length = (featureUnion a c).map List.length := by
  induction a with
  | nil => intro b c _; rfl
  | cons r a ih =>
    intro b c h
    cases b with
    | nil =>
      cases c with
      | nil => rfl
      | cons rc c2 => simp at h
    | cons rb b2 =>
      cases c with
      | nil => simp at h
      | cons rc c2 =>
        simp only [List.map_cons, List.cons.injEq] at h
        simp only [featureUnion, List.zip_cons_cons, List.map_cons, List.length_append,
          List.cons.injEq]
        exact ⟨by rw [h.1], ih b2 c2 h.2⟩

/-- Claim C3: the Feature Vector has the same width whether the length
feature's `active` flag is true or false — when false, the feature emits a
constant zero placeholder column rather than being omitted, so the combined
width is identical across grid combinations. -/
theorem C3_stable_feature_width :
    ∀ (vecOut : List (List Nat)) (f : String → Nat) (texts : List String) (a1 a2 : Bool),
      (featureUnion vecOut (pipelinize_feature f a1 texts)).map List.length =
        (featureUnion vecOut (pipelinize_feature f a2 texts)).map List.length
      ∧ pipelinize_feature f false texts = texts.map fun _ => [0] := by
  intro vecOut f texts a1 a2
  constructor
  · exact featureUnion_width_congr vecOut _ _
      ((pipelinize_feature_widths f a1 texts).trans
        (pipelinize_feature_widths f a2 texts).symm)
  · simp [pipelinize_feature]

/-! ## Lemmas about the search's error handling and selection -/

theorem foldl_pickBetter_mem (xs : List (Combo × Rat)) :
    ∀ x : Combo × Rat, xs.foldl pickBetter x ∈ x :: xs := by
  induction xs with
  | nil => intro x; exact List.mem_singleton.mpr rfl
  | cons y ys ih =>
    intro x
    have h := ih (pickBetter x y)
    have hsub : pickBetter x y :: ys ⊆ x :: y :: ys := by
      intro z hz
      rcases List.mem_cons.mp hz with rfl | hz
      · unfold pickBetter
        split
        · exact List.mem_cons_of_mem _ (List.mem_cons_self _ _)
        · exact List.mem_cons_self _ _
      · exact List.mem_cons_of_mem _ (List.mem_cons_of_mem _ hz)
    exact hsub h

theorem le_foldl_pickBetter (xs : List (Combo × Rat)) :
    ∀ x : Combo × Rat, x.2 ≤ (xs.foldl pickBetter x).2 := by
  induction xs with
  | nil => intro x; exact le_refl _
  | cons y ys ih =>
    intro x
    refine le_trans ?_ (ih (pickBetter x y))
    unfold pickBetter
    split
    · exact le_of_lt (by assumption)
    · exact le_refl _

theorem foldl_pickBetter_max (xs : List (Combo × Rat)) :
    ∀ (x z : Combo × Rat), z ∈ x :: xs → z.2 ≤ (xs.foldl pickBetter x).2 := by
  induction xs with
  | nil =>
    intro x z hz
    rw [List.mem_singleton.mp hz]
    exact le_refl _
  | cons y ys ih =>
    intro x z hz
    rcases List.mem_cons.mp hz with rfl | hz
    · exact le_foldl_pickBetter (y :: ys) z
    · rcases List.mem_cons.mp hz with rfl | hz
      · refine le_trans ?_ (le_foldl_pickBetter ys (pickBetter x z))
        unfold pickBetter
        split
        · exact le_refl _
        · exact le_of_not_lt (by assumption)
      · exact ih (pickBetter x y) z (List.mem_cons_of_mem _ hz)

theorem selectBest_spec (scores : List (Combo × Rat)) (b : Combo × Rat)
    (h : selectBest scores = some b) : b ∈ scores ∧ ∀ x ∈ scores, x.2 ≤ b.2 := by
  cases scores with
  | nil => exact absurd h (by simp [selectBest])
  | cons x xs =>
    have hb : b = xs.foldl pickBetter x := by
      simpa [selectBest] using h.symm
    subst hb
    exact ⟨foldl_pickBetter_mem xs x, fun z hz => foldl_pickBetter_max xs x z hz⟩

/-- Claim C4: every combination is recorded (a failed fit with the worst
score) and the search continues past individual failures; the outcome is the
fatal SearchExhausted error exactly when every combination's fit failed, and a
successful outcome is one of the recorded combinations. -/
theorem C4_search_error_handling :
    ∀ (fit : Combo → Option Rat) (combos : List Combo),
      (recordedScores fit combos).length = combos.length
      ∧ (∀ c ∈ combos, fit c = none → (c, worstScore) ∈ recordedScores fit combos)
      ∧ (runSearch fit combos = .error .SearchExhausted ↔ ∀ c ∈ combos, fit c = none)
      ∧ (∀ b, runSearch fit combos = .ok b → b ∈ recordedScores fit combos) := by
  intro fit combos
  refine ⟨by simp [recordedScores], ?_, ?_, ?_⟩
  · intro c hc hfail
    have : recordScore fit c = worstScore := by simp [recordScore, hfail]
    exact this ▸ List.mem_map_of_mem _ hc
  · constructor
    · intro herr c hc
      unfold runSearch at herr
      split at herr
      · next hall =>
        have := List.all_eq_true.mp hall c hc
        exact Option.isNone_iff_eq_none.mp (by simpa using this)
      · next hall =>
        exfalso
        cases combos with
        | nil => exact hall (by simp)
        | cons c0 cs =>
          simp only [recordedScores, List.map_cons, selectBest] at herr
          exact Except.noConfusion herr
    · intro hfail
      unfold runSearch
      have hall : combos.all (fun c => (fit c).isNone) = true :=
        List.all_eq_true.mpr fun c hc => by simp [hfail c hc]
      simp [hall]
  · intro b hok
    unfold runSearch at hok
    split at hok
    · exact Except.noConfusion hok
    · revert hok
      split
      · next hsel =>
        intro hok
        cases hok
        exact (selectBest_spec _ _ hsel).1
      · intro hok
        exact Except.noConfusion hok

/-- Witness for C4: with a fit that fails on every combination of a
one-combination grid, the search is the fatal SearchExhausted error, and the
failing combination is still recorded with the worst score. -/
theorem C4_search_error_handling_witness :
    runSearch failFit demoCombos = .error .SearchExhausted
    ∧ ([ParamValue.kwActive true], worstScore) ∈ recordedScores failFit demoCombos := by
  have h := C4_search_error_handling failFit demoCombos
  exact ⟨h.2.2.1.mpr fun c _ => rfl,
    h.2.1 [ParamValue.kwActive true] (List.mem_singleton.mpr rfl) rfl⟩

/-! ## Determinism of the search state machine -/

theorem step_deterministic (axes : List (List ParamValue)) (seed : Nat)
    (data : List CorpusItem) (s t1 t2 : SearchState)
    (h1 : Step axes seed data s t1) (h2 : Step axes seed data s t2) : t1 = t2 := by
  cases h1 <;> cases h2 <;> simp_all

theorem done_no_step (axes : List (List ParamValue)) (seed : Nat)
    (data : List CorpusItem) (b : Combo × Rat) (rep : Report) (t : SearchState) :
    ¬ Step axes seed data (.done b rep) t := by
  intro h
  cases h

theorem reaches_terminal_eq (axes : List (List ParamValue)) (seed : Nat)
    (data : List CorpusItem) (s t1 t2 : SearchState)
    (h1 : Reaches axes seed data s t1) :
    Reaches axes seed data s t2 →
    (∀ u, ¬ Step axes seed data t1 u) → (∀ u, ¬ Step axes seed data t2 u) → t1 = t2 := by
  induction h1 using Relation.ReflTransGen.head_induction_on with
  | refl =>
    intro h2 hterm1 hterm2
    rcases Relation.ReflTransGen.cases_head h2 with rfl | ⟨c, hc, _⟩
    · rfl
    · exact absurd hc (hterm1 c)
  | head hstep hrest ih =>
    intro h2 hterm1 hterm2
    rcases Relation.ReflTransGen.cases_head h2 with rfl | ⟨c, hc, hc2⟩
    · exact absurd hstep (hterm2 _)
    · have := step_deterministic axes seed data _ _ _ hstep hc
      exact ih (this ▸ hc2) hterm1 hterm2

/-- Claim C5: two runs of the Search with the same seed on identical input
reach the same Best Configuration and the same Report — the whole run,
including the split and fold assignment, is a function of the fixed inputs
alone, so the machine's terminal state is unique. -/
theorem C5_search_deterministic (axes : List (List ParamValue)) (seed : Nat)
    (data : List CorpusItem) (b1 b2 : Combo × Rat) (r1 r2 : Report)
    (h1 : Reaches axes seed data .idle (.done b1 r1))
    (h2 : Reaches axes seed data .idle (.done b2 r2)) :
    b1 = b2 ∧ r1 = r2 := by
  have heq := reaches_terminal_eq axes seed data .idle (.done b1 r1) (.done b2 r2) h1 h2
    (fun u => done_no_step axes seed data b1 r1 u)
    (fun u => done_no_step axes seed data b2 r2 u)
  injection heq with hb hr
  exact ⟨hb, hr⟩

theorem tiny_run : Reaches tinyAxes 0 [] .idle (.done tinyBest tinyReport) := by
  refine Relation.ReflTransGen.head Step.split ?_
  refine Relation.ReflTransGen.head (Step.toEvaluating _ _) ?_
  refine Relation.ReflTransGen.head
    (Step.evalOne ([] : List CorpusItem) ([] : List CorpusItem) tinyCombo [] []) ?_
  refine Relation.ReflTransGen.head (Step.toSelecting _ _ _) ?_
  refine Relation.ReflTransGen.head (Step.select _ _ _ tinyBest rfl) ?_
  exact Relation.ReflTransGen.head (Step.finish _ _ _) Relation.ReflTransGen.refl

/-- Witness for C5: the single-axis machine on the empty corpus reaches a
terminal state, and two such runs give the same best record and report. -/
theorem C5_search_deterministic_witness : tinyBest = tinyBest ∧ tinyReport = tinyReport :=
  C5_search_deterministic tinyAxes 0 [] tinyBest tinyBest tinyReport tinyReport
    tiny_run tiny_run

/-! ## The split is a partition of the dataset -/

theorem shuffleGo_perm :
    ∀ (fuel s : Nat) (l : List Nat), fuel = l.length → (shuffleGo fuel s l).Perm l := by
  intro fuel
  induction fuel with
  | zero =>
    intro s l h
    have : l = [] := List.length_eq_zero.mp h.symm
    subst this
    exact List.Perm.refl _
  | succ n ih =>
    intro s l h
    cases l with
    | nil => simp at h
    | cons x xs =>
      rw [shuffleGo]
      have hpos : 0 < (x :: xs).length := by simp
      have hi : s % (x :: xs).length < (x :: xs).length := Nat.mod_lt _ hpos
      have hy : (x :: xs).getD (s % (x :: xs).length) x =
          (x :: xs).get ⟨s % (x :: xs).length, hi⟩ := by
        rw [List.getD_eq_getElem _ _ hi]
        rfl
      have hmem : (x :: xs).getD (s % (x :: xs).length) x ∈ x :: xs := by
        rw [hy]
        exact (x :: xs).get_mem _ _
      have hlen : n = ((x :: xs).erase ((x :: xs).getD (s % (x :: xs).length) x)).length := by
        rw [List.length_erase_of_mem hmem]
        simp only [List.length_cons] at h ⊢
        omega
      exact (List.Perm.cons _ (ih (lcg s) _ hlen)).trans (List.perm_cons_erase hmem).symm

theorem shuffle_perm (s : Nat) (l : List Nat) : (shuffle s l).Perm l :=
  shuffleGo_perm l.length s l rfl

/-- Claim C6: the train/test split produces a Training Set and an Evaluation
Set that are disjoint and whose concatenation is a permutation of the full
index set — together they cover the Dataset exactly, each item exactly once. -/
theorem C6_split_partition (seed n : Nat) :
    ((train_test_split seed n).1 ++ (train_test_split seed n).2).Perm (List.range n)
    ∧ (train_test_split seed n).1.Disjoint (train_test_split seed n).2 := by
  have hperm : (shuffle seed (List.range n)).Perm (List.range n) := shuffle_perm _ _
  have hnd : (shuffle seed (List.range n)).Nodup :=
    hperm.nodup_iff.mpr (List.nodup_range n)
  have hsplit :
      (shuffle seed (List.range n)).take ((n + 3) / 4) ++
        (shuffle seed (List.range n)).drop ((n + 3) / 4) = shuffle seed (List.range n) :=
    List.take_append_drop _ _
  constructor
  · exact (List.perm_append_comm.trans (hsplit ▸ List.Perm.refl _)).trans hperm
  · have hnd2 : ((shuffle seed (List.range n)).take ((n + 3) / 4) ++
        (shuffle seed (List.range n)).drop ((n + 3) / 4)).Nodup := by
      rw [hsplit]
      exact hnd
    exact ((List.nodup_append.mp hnd2).2.2).symm

/-! ## No vocabulary leakage -/

theorem vocab_subset (docs : List (List String)) (t : String) (h : t ∈ vocab docs) :
    t ∈ docs.flatten := by
  simpa [vocab] using h

/-- Claim C7: the vocabulary learned on a fold's training portion contains no
term that appears only in that fold's held-out portion, and the vocabulary of
the final refit contains no term that appears only in the Evaluation Set — a
fitted vocabulary only ever contains terms of the documents it was fitted
on. -/
theorem C7_no_vocabulary_leakage :
    (∀ (docs : List (List String)) (k i : Nat) (term : String),
      term ∈ (foldHeldOut k i docs).flatten →
      term ∉ (foldTrainPart k i docs).flatten →
      term ∉ vocab (foldTrainPart k i docs))
    ∧ (∀ (trainDocs evalDocs : List (List String)) (term : String),
        term ∈ evalDocs.flatten → term ∉ trainDocs.flatten →
        term ∉ vocab trainDocs) := by
  constructor
  · intro docs k i term _ habsent hvocab
    exact habsent (vocab_subset _ _ hvocab)
  · intro trainDocs evalDocs term _ habsent hvocab
    exact habsent (vocab_subset _ _ hvocab)

/-- Witness for C7: a synthetic term occurring only in the held-out document
of fold 2 of 3 is absent from the vocabulary fitted on that fold's training
portion. -/
theorem C7_no_vocabulary_leakage_witness :
    "leak" ∈ (foldHeldOut 3 2 leakDocs).flatten
    ∧ "leak" ∉ (foldTrainPart 3 2 leakDocs).flatten
    ∧ "leak" ∉ vocab (foldTrainPart 3 2 leakDocs) := by
  have h1 : "leak" ∈ (foldHeldOut 3 2 leakDocs).flatten := by
    simp [foldHeldOut, leakDocs]
  have h2 : "leak" ∉ (foldTrainPart 3 2 leakDocs).flatten := by
    simp [foldTrainPart, leakDocs]
  exact ⟨h1, h2, C7_no_vocabulary_leakage.1 leakDocs 3 2 "leak" h1 h2⟩

/-! ## Confusion matrix totals -/

theorem countP_snd_partition (l : List (Label × Label)) (t : Label) :
    (l.countP fun x => decide (x.1 = t) && decide (x.2 = Label.negative)) +
    (l.countP fun x => decide (x.1 = t) && decide (x.2 = Label.neutral)) +
    (l.countP fun x => decide (x.1 = t) && decide (x.2 = Label.positive)) =
    l.countP fun x => decide (x.1 = t) := by
  induction l with
  | nil => rfl
  | cons a l ih =>
    obtain ⟨u, v⟩ := a
    simp only [List.countP_cons]
    by_cases h : u = t
    · cases v <;> simp [h] <;> omega
    · cases v <;> simp [h] <;> omega

theorem countP_fst_partition (l : List (Label × Label)) (p : Label) :
    (l.countP fun x => decide (x.1 = Label.negative) && decide (x.2 = p)) +
    (l.countP fun x => decide (x.1 = Label.neutral) && decide (x.2 = p)) +
    (l.countP fun x => decide (x.1 = Label.positive) && decide (x.2 = p)) =
    l.countP fun x => decide (x.2 = p) := by
  induction l with
  | nil => rfl
  | cons a l ih =>
    obtain ⟨u, v⟩ := a
    simp only [List.countP_cons]
    by_cases h : v = p
    · cases u <;> simp [h] <;> omega
    · cases u <;> simp [h] <;> omega

theorem countP_zip_fst :
    ∀ (truth pred : List Label), truth.length = pred.length → ∀ t : Label,
      ((truth.zip pred).countP fun x => decide (x.1 = t)) = countLabel t truth := by
  intro truth
  induction truth with
  | nil => intro pred _ t; rfl
  | cons a l ih =>
    intro pred h t
    cases pred with
    | nil => simp at h
    | cons b pr =>
      have hlen : l.length = pr.length := by simpa using h
      simp only [List.zip_cons_cons, List.countP_cons, countLabel, List.count_cons] at *
      rw [ih pr hlen t]
      by_cases hat : a = t <;> simp [countLabel, hat]

theorem countP_zip_snd :
    ∀ (truth pred : List Label), truth.length = pred.length → ∀ p : Label,
      ((truth.zip pred).countP fun x => decide (x.2 = p)) = countLabel p pred := by
  intro truth
  induction truth with
  | nil =>
    intro pred h p
    have : pred = [] := List.length_eq_zero.mp h.symm
    subst this
    rfl
  | cons a l ih =>
    intro pred h p
    cases pred with
    | nil => simp at h
    | cons b pr =>
      have hlen : l.length = pr.length := by simpa using h
      simp only [List.zip_cons_cons, List.countP_cons, countLabel, List.count_cons] at *
      rw [ih pr hlen p]
      by_cases hbp : b = p <;> simp [countLabel, hbp]

theorem countLabel_total (ys : List Label) :
    countLabel .negative ys + countLabel .neutral ys + countLabel .positive ys =
      ys.length := by
  induction ys with
  | nil => rfl
  | cons a l ih =>
    simp only [countLabel, List.count_cons, List.length_cons] at *
    cases a <;> simp <;> omega

/-- Claim C9: in the confusion matrix (rows = true label, columns = predicted
label), each row sum is the count of that true class in the Evaluation Set,
each column sum is the count of items predicted as that class, and the grand
total is the Evaluation Set size; the recorded matrix's totals are exactly the
recorded `__all__` row and column. -/
theorem C9_confusion_matrix_totals :
    (∀ truth pred : List Label, truth.length = pred.length →
      rowTotals (confusionOf truth pred) =
        [countLabel .negative truth, countLabel .neutral truth,
         countLabel .positive truth]
      ∧ colTotals (confusionOf truth pred) =
        [countLabel .negative pred, countLabel .neutral pred,
         countLabel .positive pred]
      ∧ grandTotal (confusionOf truth pred) = truth.length)
    ∧ rowTotals recordedConfusion = [64, 70, 91]
    ∧ colTotals recordedConfusion = [44, 70, 111]
    ∧ grandTotal recordedConfusion = recordedEvalSize := by
  refine ⟨?_, by decide, by decide, by decide⟩
  intro truth pred hlen
  have hrow : ∀ t, (confusionRow truth pred t).sum = countLabel t truth := by
    intro t
    have h1 := countP_snd_partition (truth.zip pred) t
    have h2 := countP_zip_fst truth pred hlen t
    simp only [confusionRow, allLabels, confusionEntry, List.map_cons, List.map_nil,
      List.sum_cons, List.sum_nil]
    omega
  have hcol : ∀ p, confusionEntry truth pred .negative p +
      confusionEntry truth pred .neutral p + confusionEntry truth pred .positive p =
      countLabel p pred := by
    intro p
    have h1 := countP_fst_partition (truth.zip pred) p
    have h2 := countP_zip_snd truth pred hlen p
    simp only [confusionEntry]
    omega
  refine ⟨?_, ?_, ?_⟩
  · simp only [rowTotals, confusionOf, allLabels, List.map_cons, List.map_nil]
    rw [hrow, hrow, hrow]
  · simp only [colTotals, confusionOf, confusionRow, allLabels, List.map_cons,
      List.map_nil, List.zipWith_cons_cons, List.zipWith_nil_right, List.cons.injEq,
      and_true]
    refine ⟨?_, ?_, ?_⟩
    · have := hcol .negative; omega
    · have := hcol .neutral; omega
    · have := hcol .positive; omega
  · simp only [grandTotal, confusionOf, allLabels, List.map_cons, List.map_nil,
      List.sum_cons, List.sum_nil, hrow]
    have := countLabel_total truth
    omega

/-- Witness for C9 on a concrete four-item evaluation: the totals of its
confusion matrix are the class counts and the set size. -/
theorem C9_confusion_matrix_totals_witness :
    truthSample.length = predSample.length
    ∧ rowTotals (confusionOf truthSample predSample) =
        [countLabel .negative truthSample, countLabel .neutral truthSample,
         countLabel .positive truthSample]
    ∧ colTotals (confusionOf truthSample predSample) =
        [countLabel .negative predSample, countLabel .neutral predSample,
         countLabel .positive predSample]
    ∧ grandTotal (confusionOf truthSample predSample) = truthSample.length := by
  have hlen : truthSample.length = predSample.length := rfl
  have h := C9_confusion_matrix_totals.1 truthSample predSample hlen
  exact ⟨hlen, h.1, h.2.1, h.2.2⟩

/-! ## The recorded end-to-end run -/

theorem shuffle_length (s : Nat) (l : List Nat) : (shuffle s l).length = l.length :=
  (shuffle_perm s l).length_eq

theorem train_test_split_lengths (seed n : Nat) :
    (train_test_split seed n).2.length = min ((n + 3) / 4) n
    ∧ (train_test_split seed n).1.length = n - (n + 3) / 4 := by
  unfold train_test_split
  simp [shuffle_length]

/-- Claim C8 counterexample: the recorded run loaded 899 posts and its
confusion matrix totals 225 evaluation items, so its Training Set had
899 − 225 = 674 items; a 675-item Training Set plus a 225-item Evaluation Set
cannot cover the recorded 899-item Dataset. -/
theorem C8_end_to_end_counterexample :
    totalPosts = 899 ∧ recordedEvalSize = 225
    ∧ totalPosts - recordedEvalSize = 674 ∧ 675 + 225 ≠ totalPosts := by
  decide

/-- Claim C8 (amended): in the recorded end-to-end run the Dataset has 899
items and the split yields a Training Set of 674 items and an Evaluation Set
of 225 items; the 360-combination grid with 3-fold cross-validation performs
1080 fold-fits; Selecting picks a recorded combination of maximal mean fold
score; and the Report's accuracy and confusion matrix are exactly those of the
refit pipeline's Evaluation Set predictions, the recorded matrix giving the
recorded 64% accuracy. -/
theorem C8_end_to_end :
    totalPosts = 899
    ∧ (∀ seed : Nat, (train_test_split seed totalPosts).2.length = 225
        ∧ (train_test_split seed totalPosts).1.length = 674)
    ∧ (expandGrid notebookGrid).length = 360
    ∧ numFolds * (expandGrid notebookGrid).length = 1080
    ∧ (∀ (scores : List (Combo × Rat)) (b : Combo × Rat), selectBest scores = some b →
        b ∈ scores ∧ ∀ x ∈ scores, x.2 ≤ b.2)
    ∧ (∀ (predict : String → Label) (train evalItems : List CorpusItem),
        (evaluateReport predict train evalItems).acc =
          accuracy (evalItems.map (·.label)) (evalItems.map fun it => predict it.text)
        ∧ (evaluateReport predict train evalItems).confusion =
          confusionOf (evalItems.map (·.label)) (evalItems.map fun it => predict it.text))
    ∧ (diagSum recordedConfusion : Rat) / (grandTotal recordedConfusion : Rat) =
        64 / 100 := by
  refine ⟨rfl, ?_, ?_, ?_, fun scores b h => selectBest_spec scores b h,
    fun predict train evalItems => ⟨rfl, rfl⟩, ?_⟩
  · intro seed
    have h := train_test_split_lengths seed totalPosts
    constructor
    · rw [h.1]; decide
    · rw [h.2]; decide
  · rw [expandGrid_length]; rfl
  · rw [expandGrid_length]; rfl
  · have hd : diagSum recordedConfusion = 144 := by decide
    have hg : grandTotal recordedConfusion = 225 := by decide
    rw [hd, hg]
    norm_num

/-- Witness for C8: the selection property at two concrete score records, and
the split sizes at seed 0. -/
theorem C8_end_to_end_witness :
    selectBest demoScores = some ([ParamValue.kwActive true], (3 : Rat) / 4)
    ∧ ([ParamValue.kwActive true], (3 : Rat) / 4) ∈ demoScores
    ∧ (∀ x ∈ demoScores, x.2 ≤ (3 : Rat) / 4)
    ∧ (train_test_split 0 totalPosts).2.length = 225 := by
  have hsel : selectBest demoScores = some ([ParamValue.kwActive true], (3 : Rat) / 4) := by
    show some (pickBetter ([ParamValue.kwActive false], (1 : Rat) / 4)
      ([ParamValue.kwActive true], (3 : Rat) / 4)) = _
    unfold pickBetter
    rw [if_pos (by norm_num)]
  have h5 := C8_end_to_end.2.2.2.2.1 demoScores _ hsel
  exact ⟨hsel, h5.1, h5.2, (C8_end_to_end.2.1 0).1⟩

/-! ## Printing the best parameters -/

/-- Claim C10: when the winning tokenizer is a non-default (bound-method)
value, `print_best_params_dict` excludes the tokenizer entry from the
serialized mapping, keeps every other entry, and prints the tokenizer's
`preserve_case` and `reduce_len` separately; only when the default (`None`)
tokenizer wins is the whole mapping, tokenizer entry included, serialized. -/
theorem C10_best_params_printing :
    ∀ bp : BestParams,
      (∀ cfg : TokenizerCfg, bp.tokenizer = some cfg →
        (print_best_params_dict bp).usedDefault = false
        ∧ (∀ v : ParamValue,
            ("features__vectorizer__tokenizer", v) ∉
              (print_best_params_dict bp).paramsToPrint)
        ∧ (print_best_params_dict bp).separateSettings =
            some (cfg.preserve_case, cfg.reduce_len)
        ∧ (∀ kv ∈ bestParamsList bp, kv.1 ≠ "features__vectorizer__tokenizer" →
            kv ∈ (print_best_params_dict bp).paramsToPrint))
      ∧ (bp.tokenizer = none →
          (print_best_params_dict bp).usedDefault = true
          ∧ (print_best_params_dict bp).paramsToPrint = bestParamsList bp
          ∧ ("features__vectorizer__tokenizer", ParamValue.tok none) ∈
              (print_best_params_dict bp).paramsToPrint
          ∧ (print_best_params_dict bp).separateSettings = none) := by
  intro bp
  constructor
  · intro cfg hcfg
    refine ⟨?_, ?_, ?_, ?_⟩
    · simp [print_best_params_dict, hcfg]
    · intro v hv
      simp only [print_best_params_dict, hcfg] at hv
      have := (List.mem_filter.mp hv).2
      simp at this
    · simp [print_best_params_dict, hcfg]
    · intro kv hkv hne
      simp only [print_best_params_dict, hcfg]
      exact List.mem_filter.mpr ⟨hkv, by simpa using hne⟩
  · intro hnone
    refine ⟨?_, ?_, ?_, ?_⟩
    · simp [print_best_params_dict, hnone]
    · simp [print_best_params_dict, hnone]
    · simp [print_best_params_dict, hnone, bestParamsList]
    · simp [print_best_params_dict, hnone]

/-- Witness for C10: with a casual-tokenizer winner the settings are printed
separately; with the default-tokenizer winner the full mapping is printed. -/
theorem C10_best_params_printing_witness :
    bpCasual.tokenizer = some ⟨false, false⟩
    ∧ (print_best_params_dict bpCasual).separateSettings = some (false, false)
    ∧ bpDefault.tokenizer = none
    ∧ (print_best_params_dict bpDefault).paramsToPrint = bestParamsList bpDefault := by
  have h1 : bpCasual.tokenizer = some ⟨false, false⟩ := rfl
  have h2 : bpDefault.tokenizer = none := rfl
  exact ⟨h1, ((C10_best_params_printing bpCasual).1 ⟨false, false⟩ h1).2.2.1, h2,
    ((C10_best_params_printing bpDefault).2 h2).2.1⟩

end Sentiment
